import Mathlib

/-!
Shallow embedding of `inspect_ai/_util/trace.py`: the `trace_action`
context manager, the `TraceFormatter` line formatter, the typed trace
record models and `read_trace_file`.  Python floats are modelled as `Rat`,
JSON text lines as an abstract syntax tree (`JValue`), and raisable
Python code as `Option`/`Except` returning functions.
-/

namespace InspectTrace

/-- Abstract syntax of one scalar JSON value.  Every field this subsystem
ever writes or reads is a scalar (string or number), so a JSON object is
modelled one level deep as a `List (String × JValue)` and nested containers
are not represented.  The textual encode/decode layer of the `json`
standard library is treated as a faithful external bijection, so the
development works directly on this tree. -/
inductive JValue where
  | jnull : JValue
  | jbool : Bool → JValue
  | jnum : Rat → JValue
  | jstr : String → JValue
deriving DecidableEq

/-- A Python value attached to a log record: either something `json.dumps`
encodes natively, or an arbitrary object that is not JSON-representable,
carried as the `str(obj)` text that `default=str` would produce for it. -/
inductive PyValue where
  | serializable : JValue → PyValue
  | nonSerializable : String → PyValue
deriving DecidableEq

/-- One value as encoded by `json.dumps`: without a `default` callback a
non-representable value raises (`none`); with `default=str` it is replaced
by its textual representation. -/
def dumpsValue (defaultStr : Bool) : PyValue → Option JValue
  | .serializable j => some j
  | .nonSerializable s => if defaultStr then some (.jstr s) else none

/-- Total encoding of a value under `default=str`. -/
def dumpsDefault : PyValue → JValue
  | .serializable j => j
  | .nonSerializable s => .jstr s

/-- `json.dumps` over the output mapping: encodes every value in order,
failing if any value is not representable and no `default` callback is
given. -/
def json_dumps (defaultStr : Bool) :
    List (String × PyValue) → Option (List (String × JValue))
  | [] => some []
  | (k, v) :: rest =>
      match dumpsValue defaultStr v with
      | none => none
      | some j =>
          match json_dumps defaultStr rest with
          | none => none
          | some tail => some ((k, j) :: tail)

/-- Left-pad a natural number with zeros to a given width. -/
def zeroPad (width : Nat) (n : Nat) : String :=
  let s := toString n
  String.mk (List.replicate (width - s.length) '0') ++ s

/-- Civil date from a day count relative to the Unix epoch
(proleptic Gregorian calendar). -/
def civilFromDays (z0 : Int) : Int × Int × Int :=
  let z := z0 + 719468
  let era := z / 146097
  let doe := z - era * 146097
  let yoe := (doe - doe / 1460 + doe / 36524 - doe / 146096) / 365
  let y := yoe + era * 400
  let doy := doe - (365 * yoe + yoe / 4 - yoe / 100)
  let mp := (5 * doy + 2) / 153
  let d := doy - (153 * mp + 2) / 5 + 1
  let m := if mp < 10 then mp + 3 else mp - 9
  (if m ≤ 2 then y + 1 else y, m, d)

/-- `TraceFormatter.formatTime`: `datetime.datetime.fromtimestamp(record.created)`
followed by `isoformat()`.  The local timezone is modelled as UTC and the
fractional second is truncated to microseconds; `isoformat` omits the
fractional part when the microsecond count is zero. -/
def TraceFormatter.formatTime (created : Rat) : String :=
  let totalMicros : Int := created.num * 1000000 / created.den
  let micros : Int := totalMicros % 1000000
  let totalSecs : Int := (totalMicros - micros) / 1000000
  let sod : Int := totalSecs % 86400
  let days : Int := (totalSecs - sod) / 86400
  let ymd := civilFromDays days
  let datePart :=
    zeroPad 4 ymd.1.toNat ++ "-" ++ zeroPad 2 ymd.2.1.toNat ++ "-" ++
      zeroPad 2 ymd.2.2.toNat
  let timePart :=
    zeroPad 2 (sod / 3600).toNat ++ ":" ++ zeroPad 2 (sod % 3600 / 60).toNat ++
      ":" ++ zeroPad 2 (sod % 60).toNat
  let fracPart := if micros = 0 then "" else "." ++ zeroPad 6 micros.toNat
  datePart ++ "T" ++ timePart ++ fracPart

/-- A `logging.LogRecord` as seen by `TraceFormatter.format`: the severity
name, creation time, the already-substituted message (`record.getMessage()`),
the best-effort diagnostic attributes guarded by `hasattr` in the source,
and the mapping of caller-supplied `extra` attributes (Python guarantees
their keys are distinct and distinct from the standard attribute names).
The standard metadata attributes that the formatter's catch-all loop skips
are listed in `standardAttrKeys` and are not modelled individually. -/
structure LogRecord where
  levelname : String
  created : Rat
  message : String
  module : Option String
  funcName : Option String
  lineno : Option Int
  extras : List (String × PyValue)
deriving DecidableEq

/-- The fixed action-record key set of `TraceFormatter.format`. -/
def fixedActionKeys : List String :=
  ["action", "event", "trace_id", "start_time", "duration", "error",
   "error_type", "stacktrace"]

/-- The exclusion list of standard `LogRecord` metadata attributes that the
catch-all loop of `TraceFormatter.format` never copies into the output. -/
def standardAttrKeys : List String :=
  ["args", "lineno", "funcName", "module", "asctime", "created", "exc_info",
   "exc_text", "filename", "levelno", "levelname", "msecs", "msg", "name",
   "pathname", "process", "processName", "relativeCreated", "stack_info",
   "thread", "threadName"]

/-- `hasattr(record, k)` for an `extra` attribute. -/
def hasAttr (extras : List (String × PyValue)) (k : String) : Bool :=
  (extras.lookup k).isSome

/-- The base fields every formatted record starts with. -/
def formatBase (r : LogRecord) : List (String × PyValue) :=
  [("timestamp", .serializable (.jstr (TraceFormatter.formatTime r.created))),
   ("level", .serializable (.jstr r.levelname)),
   ("message", .serializable (.jstr r.message))]

/-- The output mapping after the severity-dependent branch of
`TraceFormatter.format` and before its catch-all loop: diagnostic context
for non-TRACE records, the fixed action key set restricted to present
attributes for TRACE records carrying `action`. -/
def formatCtx (r : LogRecord) : List (String × PyValue) :=
  if r.levelname ≠ "TRACE" then
    formatBase r ++
      (match r.module with
        | some m => [("module", PyValue.serializable (.jstr m))]
        | none => []) ++
      (match r.funcName with
        | some f => [("function", PyValue.serializable (.jstr f))]
        | none => []) ++
      (match r.lineno with
        | some n => [("line", PyValue.serializable (.jnum n))]
        | none => [])
  else if hasAttr r.extras "action" then
    formatBase r ++
      fixedActionKeys.filterMap
        (fun k => (r.extras.lookup k).map (fun v => (k, v)))
  else formatBase r

/-- The output dictionary `TraceFormatter.format` assembles before the final
`json.dumps`: the severity-dependent part, then the catch-all loop copying
every remaining attribute that is neither already present nor standard
record metadata. -/
def TraceFormatter.buildOutput (r : LogRecord) : List (String × PyValue) :=
  formatCtx r ++
    r.extras.filter
      (fun kv =>
        ((formatCtx r).lookup kv.1).isNone && !(standardAttrKeys.contains kv.1))

/-- `TraceFormatter.format`: build the output mapping and encode it with
`json.dumps(output, default=str)`. -/
def TraceFormatter.format (r : LogRecord) : Option (List (String × JValue)) :=
  json_dumps true (TraceFormatter.buildOutput r)

/-- The four action lifecycle events, the admissible values of the
`event` literal field of `ActionTraceRecord`. -/
inductive TraceEvent where
  | enter : TraceEvent
  | exit : TraceEvent
  | cancel : TraceEvent
  | error : TraceEvent
deriving DecidableEq

/-- The serialized name of an event. -/
def TraceEvent.toStr : TraceEvent → String
  | .enter => "enter"
  | .exit => "exit"
  | .cancel => "cancel"
  | .error => "error"

/-- `SimpleTraceRecord`: a general-purpose log line (its `action` field is
always `None` and is therefore not carried). -/
structure SimpleTraceRecord where
  timestamp : String
  level : String
  message : String
deriving DecidableEq

/-- `ActionTraceRecord`: a trace line produced by `trace_action`. -/
structure ActionTraceRecord where
  timestamp : String
  level : String
  message : String
  action : String
  event : TraceEvent
  trace_id : String
  start_time : Option Rat
  duration : Option Rat
  error : Option String
  error_type : Option String
  stacktrace : Option String
deriving DecidableEq

/-- The union of the two record shapes returned by `read_trace_file`. -/
inductive TraceRecord where
  | simple : SimpleTraceRecord → TraceRecord
  | action : ActionTraceRecord → TraceRecord
deriving DecidableEq

/-- The `timestamp` field of either record shape. -/
def TraceRecord.timestamp : TraceRecord → String
  | .simple s => s.timestamp
  | .action a => a.timestamp

/-- Pydantic validation of a required `str` field. -/
def getRequiredStr (d : List (String × JValue)) (k : String) :
    Except String String :=
  match d.lookup k with
  | some (.jstr s) => .ok s
  | some _ => .error ("validation error: field " ++ k ++ " is not a string")
  | none => .error ("validation error: field " ++ k ++ " is missing")

/-- Pydantic validation of a `float | None` field defaulting to `None`. -/
def getOptionalNum (d : List (String × JValue)) (k : String) :
    Except String (Option Rat) :=
  match d.lookup k with
  | none => .ok none
  | some .jnull => .ok none
  | some (.jnum q) => .ok (some q)
  | some _ => .error ("validation error: field " ++ k ++ " is not a float")

/-- Pydantic validation of a `str | None` field defaulting to `None`. -/
def getOptionalStr (d : List (String × JValue)) (k : String) :
    Except String (Option String) :=
  match d.lookup k with
  | none => .ok none
  | some .jnull => .ok none
  | some (.jstr s) => .ok (some s)
  | some _ => .error ("validation error: field " ++ k ++ " is not a string")

/-- Pydantic validation of the `event` literal field. -/
def parseEvent (s : String) : Except String TraceEvent :=
  if s = "enter" then .ok .enter
  else if s = "exit" then .ok .exit
  else if s = "cancel" then .ok .cancel
  else if s = "error" then .ok .error
  else .error ("validation error: event must be enter, exit, cancel or error, got " ++ s)

/-- `ActionTraceRecord(**trace)`: pydantic construction from a decoded
line, enforcing required fields and the event literal; unknown keys are
ignored (the default pydantic `extra` policy). -/
def ActionTraceRecord.validate (d : List (String × JValue)) :
    Except String ActionTraceRecord := do
  let ts ← getRequiredStr d "timestamp"
  let lv ← getRequiredStr d "level"
  let msg ← getRequiredStr d "message"
  let act ← getRequiredStr d "action"
  let evs ← getRequiredStr d "event"
  let ev ← parseEvent evs
  let tid ← getRequiredStr d "trace_id"
  let st ← getOptionalNum d "start_time"
  let du ← getOptionalNum d "duration"
  let er ← getOptionalStr d "error"
  let et ← getOptionalStr d "error_type"
  let sk ← getOptionalStr d "stacktrace"
  return ⟨ts, lv, msg, act, ev, tid, st, du, er, et, sk⟩

/-- `SimpleTraceRecord(**trace)`: pydantic construction from a decoded
line; its `action: None` field rejects any non-null value. -/
def SimpleTraceRecord.validate (d : List (String × JValue)) :
    Except String SimpleTraceRecord := do
  let ts ← getRequiredStr d "timestamp"
  let lv ← getRequiredStr d "level"
  let msg ← getRequiredStr d "message"
  match d.lookup "action" with
  | none => return ⟨ts, lv, msg⟩
  | some .jnull => return ⟨ts, lv, msg⟩
  | some _ => .error "validation error: action must be None"

/-- One line of a trace file as handed to `jsonlines.Reader.iter(type=dict)`:
either text that is not valid JSON, a JSON value that is not an object
(both raise `InvalidLineError`), or a decoded object. -/
inductive JLine where
  | invalid : String → JLine
  | scalar : JValue → JLine
  | dict : List (String × JValue) → JLine
deriving DecidableEq

/-- Presence of a key in a decoded line (`"action" in trace`). -/
def hasJKey (d : List (String × JValue)) (k : String) : Bool :=
  (d.lookup k).isSome

/-- Processing of one line inside `read_trace_file`: undecodable lines fail,
and a decoded mapping is discriminated by presence of the `action` key. -/
def readTraceLine : JLine → Except String TraceRecord
  | .invalid content =>
      .error ("InvalidLineError: line is not valid json: " ++ content)
  | .scalar _ => .error "InvalidLineError: line does not match requested type"
  | .dict d =>
      if hasJKey d "action" then TraceRecord.action <$> ActionTraceRecord.validate d
      else TraceRecord.simple <$> SimpleTraceRecord.validate d

/-- `read_trace_file`: materialize every line in order; the first failing
line aborts the whole read with its error and no partial result. -/
def read_trace_file : List JLine → Except String (List TraceRecord)
  | [] => .ok []
  | l :: rest =>
      match readTraceLine l with
      | .error e => .error e
      | .ok r =>
          match read_trace_file rest with
          | .error e => .error e
          | .ok rs => .ok (r :: rs)

/-- Modelled from the spec: the reserved numeric action-trace severity
(`TRACE` from `constants.py`, which is not among the provided sources),
lower than the standard informational severity 20. -/
def TRACE : Int := 13

/-- Outcome of the work wrapped by `trace_action`, the design-level tagged
view of what the `try` body's `yield` produced: normal completion, a
cooperative cancellation signal or external interrupt (`KeyboardInterrupt`
or `asyncio.CancelledError`), or any other failure `ex : Exception`
carrying `str(ex)`, `type(ex).__name__` and `traceback.format_exc()`. -/
inductive WorkOutcome where
  | completed : WorkOutcome
  | cancelled : WorkOutcome
  | failed : String → String → String → WorkOutcome
deriving DecidableEq

/-- What the `trace_action` activation does to its caller after the scope
unwinds: propagate the message-rendering failure (raised before any record
was emitted), return normally, or re-raise the work's own cancellation or
failure unchanged. -/
inductive ActivationResult where
  | renderFailed : ActivationResult
  | completed : ActivationResult
  | cancelled : ActivationResult
  | failed : String → String → String → ActivationResult
deriving DecidableEq

/-- Positional `%`-substitution, `message % args`, on the fragment of the
Python format language this subsystem uses (`%s` conversions and the `%%`
escape); any other conversion, a missing argument or a leftover argument
raises, modelled as `none`. -/
def substPos : List Char → List String → Option (List Char)
  | [], [] => some []
  | [], _ :: _ => none
  | '%' :: '%' :: rest, as =>
      (substPos rest as).map (fun t => '%' :: t)
  | '%' :: 's' :: rest, a :: as =>
      (substPos rest as).map (fun t => a.data ++ t)
  | '%' :: 's' :: _, [] => none
  | '%' :: _, _ => none
  | c :: rest, as => (substPos rest as).map (fun t => c :: t)

mutual

/-- Keyword `%`-substitution, `message % kwargs`, on the `%(key)s`
conversions and the `%%` escape; a missing key or any other conversion
raises, modelled as `none` (unused keys are permitted, as in Python). -/
def substKw : List Char → List (String × String) → Option (List Char)
  | [], _ => some []
  | '%' :: '%' :: rest, m =>
      (substKw rest m).map (fun t => '%' :: t)
  | '%' :: '(' :: rest, m => substKwKey rest [] m
  | '%' :: _, _ => none
  | c :: rest, m => (substKw rest m).map (fun t => c :: t)
termination_by cs _ => cs.length

/-- Scan the key of a `%(key)s` conversion (accumulated in reverse),
then substitute the looked-up value and continue. -/
def substKwKey : List Char → List Char → List (String × String) →
    Option (List Char)
  | [], _, _ => none
  | ')' :: 's' :: rest, acc, m =>
      match m.lookup (String.mk acc.reverse) with
      | some v => (substKw rest m).map (fun t => v.data ++ t)
      | none => none
  | ')' :: _, _, _ => none
  | c :: rest, acc, m => substKwKey rest (c :: acc) m
termination_by cs _ _ => cs.length

end

/-- The message rendering of `trace_action`:
`message % args if args else message % kwargs if kwargs else message`. -/
def renderMessage (message : String) (args : List String)
    (kwargs : List (String × String)) : Option String :=
  if args ≠ [] then (substPos message.data args).map String.mk
  else if kwargs ≠ [] then (substKw message.data kwargs).map String.mk
  else some message

/-- The inner `trace_message` helper of `trace_action`. -/
def traceMessage (action : String) (formatted : String) (event : String) :
    String :=
  "Action: " ++ action ++ " - " ++ formatted ++ " (" ++ event ++ ")"

/-- One `logger.log(TRACE, message, extra=...)` call made by `trace_action`. -/
structure LogEmit where
  levelno : Int
  message : String
  extras : List (String × PyValue)
deriving DecidableEq

/-- `trace_action(logger, action, message, *args, **kwargs)`: the shallow
embedding of the context manager.  The external inputs of one activation
are passed explicitly: the fresh `shortuuid.uuid()` value, the wall clock
at entry (`time.time()`), the monotonic clock at entry and at the terminal
edge (`time.monotonic()`), and the tagged outcome of the wrapped work.
The result is the ordered list of emitted records and what propagates to
the caller. -/
def trace_action (action : String) (message : String) (args : List String)
    (kwargs : List (String × String)) (trace_id : String) (start_wall : Rat)
    (start_monotonic : Rat) (end_monotonic : Rat) (outcome : WorkOutcome) :
    List LogEmit × ActivationResult :=
  match renderMessage message args kwargs with
  | none => ([], .renderFailed)
  | some formatted =>
    let enterEmit : LogEmit :=
      ⟨TRACE, traceMessage action formatted "enter",
        [("action", .serializable (.jstr action)),
         ("event", .serializable (.jstr "enter")),
         ("trace_id", .serializable (.jstr trace_id)),
         ("start_time", .serializable (.jnum start_wall))]⟩
    let duration := end_monotonic - start_monotonic
    match outcome with
    | .completed =>
        ([enterEmit,
          ⟨TRACE, traceMessage action formatted "exit",
            [("action", .serializable (.jstr action)),
             ("event", .serializable (.jstr "exit")),
             ("trace_id", .serializable (.jstr trace_id)),
             ("duration", .serializable (.jnum duration))]⟩],
         .completed)
    | .cancelled =>
        ([enterEmit,
          ⟨TRACE, traceMessage action formatted "cancel",
            [("action", .serializable (.jstr action)),
             ("event", .serializable (.jstr "cancel")),
             ("trace_id", .serializable (.jstr trace_id)),
             ("duration", .serializable (.jnum duration))]⟩],
         .cancelled)
    | .failed m ty st =>
        ([enterEmit,
          ⟨TRACE, traceMessage action formatted "error",
            [("action", .serializable (.jstr action)),
             ("event", .serializable (.jstr "error")),
             ("trace_id", .serializable (.jstr trace_id)),
             ("duration", .serializable (.jnum duration)),
             ("error", .serializable (.jstr m)),
             ("error_type", .serializable (.jstr ty)),
             ("stacktrace", .serializable (.jstr st))]⟩],
         .failed m ty st)

/-- The value a typed `ActionTraceRecord` holds for each fixed action key:
the three required fields are always present, the optional fields only when
not `None`. -/
def actionField (a : ActionTraceRecord) : String → Option PyValue := fun k =>
  if k = "action" then some (.serializable (.jstr a.action))
  else if k = "event" then some (.serializable (.jstr a.event.toStr))
  else if k = "trace_id" then some (.serializable (.jstr a.trace_id))
  else if k = "start_time" then
    a.start_time.map (fun q => .serializable (.jnum q))
  else if k = "duration" then
    a.duration.map (fun q => .serializable (.jnum q))
  else if k = "error" then a.error.map (fun s => .serializable (.jstr s))
  else if k = "error_type" then
    a.error_type.map (fun s => .serializable (.jstr s))
  else if k = "stacktrace" then
    a.stacktrace.map (fun s => .serializable (.jstr s))
  else none

/-- The `extra` attribute mapping of the log record an `ActionTraceRecord`
came from: exactly its present action fields, in the fixed key order. -/
def ActionTraceRecord.toExtras (a : ActionTraceRecord) :
    List (String × PyValue) :=
  fixedActionKeys.filterMap (fun k => (actionField a k).map (fun v => (k, v)))

/-- The log record whose formatting produced a typed record: level name and
message from the record, no diagnostic attributes, extras carrying exactly
the record's present action fields, `created` at the given instant. -/
def TraceRecord.toLogRecord (created : Rat) : TraceRecord → LogRecord
  | .simple s => ⟨s.level, created, s.message, none, none, none, []⟩
  | .action a => ⟨a.level, created, a.message, none, none, none, a.toExtras⟩

/-- One line of the file `TraceFormatter.format` wrote for a record:
the serialized object when encoding succeeds (it always does). -/
def serializedLine (r : LogRecord) : JLine :=
  match TraceFormatter.format r with
  | some d => .dict d
  | none => .invalid "<unserializable record>"

/-- One activation of `trace_action`: its arguments together with the
external inputs of that activation (fresh uuid, clock readings, outcome of
the wrapped work). -/
structure Activation where
  action : String
  message : String
  args : List String
  kwargs : List (String × String)
  trace_id : String
  start_wall : Rat
  start_monotonic : Rat
  end_monotonic : Rat
  outcome : WorkOutcome

/-- The ordered list of records one activation emits. -/
def Activation.emits (a : Activation) : List LogEmit :=
  (trace_action a.action a.message a.args a.kwargs a.trace_id a.start_wall
    a.start_monotonic a.end_monotonic a.outcome).1

/-- Whether an emitted record carries the given trace id. -/
def LogEmit.hasTraceId (e : LogEmit) (tid : String) : Bool :=
  decide (e.extras.lookup "trace_id" =
    some (PyValue.serializable (JValue.jstr tid)))

theorem lookup_cons_self {α : Type} (k : String) (v : α) (l : List (String × α)) :
    ((k, v) :: l).lookup k = some v := by
  simp [List.lookup]

theorem lookup_cons_ne {α : Type} {k k0 : String} (v : α) (l : List (String × α))
    (h : k ≠ k0) : ((k0, v) :: l).lookup k = l.lookup k := by
  have hb : (k == k0) = false := by simp [h]
  simp [List.lookup, hb]

theorem lookup_append_of_some {α : Type} {l1 l2 : List (String × α)} {k : String}
    {v : α} (h : l1.lookup k = some v) : (l1 ++ l2).lookup k = some v := by
  induction l1 with
  | nil => simp [List.lookup] at h
  | cons kv rest ih =>
    rcases kv with ⟨k0, v0⟩
    by_cases hk : k = k0
    · subst hk
      rw [lookup_cons_self] at h
      simpa [lookup_cons_self] using h
    · rw [lookup_cons_ne _ _ hk] at h
      rw [List.cons_append, lookup_cons_ne _ _ hk]
      exact ih h

theorem lookup_append_of_none {α : Type} {l1 l2 : List (String × α)} {k : String}
    (h : l1.lookup k = none) : (l1 ++ l2).lookup k = l2.lookup k := by
  induction l1 with
  | nil => simp
  | cons kv rest ih =>
    rcases kv with ⟨k0, v0⟩
    by_cases hk : k = k0
    · subst hk; rw [lookup_cons_self] at h; cases h
    · rw [lookup_cons_ne _ _ hk] at h
      rw [List.cons_append, lookup_cons_ne _ _ hk]
      exact ih h

theorem lookup_isSome_of_mem {α : Type} {l : List (String × α)} {k : String}
    {v : α} (h : (k, v) ∈ l) : (l.lookup k).isSome := by
  induction l with
  | nil => cases h
  | cons kv rest ih =>
    rcases kv with ⟨k0, v0⟩
    by_cases hk : k = k0
    · subst hk; simp [lookup_cons_self]
    · rw [lookup_cons_ne _ _ hk]
      rcases List.mem_cons.mp h with heq | hmem
      · cases heq; simp at hk
      · exact ih hmem

theorem lookup_eq_some_of_mem_nodup {α : Type} {l : List (String × α)} {k : String}
    {v : α} (hnd : (l.map Prod.fst).Nodup) (h : (k, v) ∈ l) : l.lookup k = some v := by
  induction l with
  | nil => cases h
  | cons kv rest ih =>
    rcases kv with ⟨k0, v0⟩
    rw [List.map_cons] at hnd
    rcases List.nodup_cons.mp hnd with ⟨hk0, hndr⟩
    rcases List.mem_cons.mp h with heq | hmem
    · cases heq; exact lookup_cons_self _ _ _
    · have hk : k ≠ k0 := by
        rintro rfl
        exact hk0 (List.mem_map.mpr ⟨(k, v), hmem, rfl⟩)
      rw [lookup_cons_ne _ _ hk]
      exact ih hndr hmem

theorem lookup_mem {α : Type} {l : List (String × α)} {k : String} {v : α}
    (h : l.lookup k = some v) : (k, v) ∈ l := by
  induction l with
  | nil => simp [List.lookup] at h
  | cons kv rest ih =>
    rcases kv with ⟨k0, v0⟩
    by_cases hk : k = k0
    · subst hk; rw [lookup_cons_self] at h; cases h; exact List.mem_cons_self _ _
    · rw [lookup_cons_ne _ _ hk] at h
      exact List.mem_cons_of_mem _ (ih h)

theorem lookup_filterMap_of_not_mem {α : Type} (keys : List String)
    (g : String → Option α) {k : String} (hk : k ∉ keys) :
    (keys.filterMap (fun k0 => (g k0).map (fun v => (k0, v)))).lookup k = none := by
  induction keys with
  | nil => rfl
  | cons k0 rest ih =>
    have hne : k ≠ k0 := fun h => hk (h ▸ List.mem_cons_self _ _)
    have hrest : k ∉ rest := fun h => hk (List.mem_cons_of_mem _ h)
    rcases hg : g k0 with _ | v
    · simpa [List.filterMap_cons, hg] using ih hrest
    · simpa [List.filterMap_cons, hg, lookup_cons_ne _ _ hne] using ih hrest

theorem lookup_filterMap_of_mem {α : Type} (keys : List String)
    (g : String → Option α) {k : String} (hnd : keys.Nodup) (hk : k ∈ keys) :
    (keys.filterMap (fun k0 => (g k0).map (fun v => (k0, v)))).lookup k = g k := by
  induction keys with
  | nil => cases hk
  | cons k0 rest ih =>
    rcases List.nodup_cons.mp hnd with ⟨hk0, hndr⟩
    by_cases hke : k = k0
    · subst hke
      rcases hg : g k with _ | v
      · simpa [List.filterMap_cons, hg] using lookup_filterMap_of_not_mem rest g hk0
      · simp [List.filterMap_cons, hg, lookup_cons_self]
    · have hkr : k ∈ rest := (List.mem_cons.mp hk).resolve_left hke
      rcases hg : g k0 with _ | v
      · simpa [List.filterMap_cons, hg] using ih hndr hkr
      · simpa [List.filterMap_cons, hg, lookup_cons_ne _ _ hke] using ih hndr hkr

theorem lookup_filter_of_none {α : Type} {l : List (String × α)}
    {p : String × α → Bool} {k : String} (h : l.lookup k = none) :
    (l.filter p).lookup k = none := by
  induction l with
  | nil => rfl
  | cons kv rest ih =>
    rcases kv with ⟨k0, v0⟩
    by_cases hk : k = k0
    · subst hk; rw [lookup_cons_self] at h; cases h
    · rw [lookup_cons_ne _ _ hk] at h
      by_cases hp : p (k0, v0)
      · simpa [List.filter_cons, hp, lookup_cons_ne _ _ hk] using ih h
      · simpa [List.filter_cons, hp] using ih h

theorem lookup_map_value {α β : Type} (l : List (String × α)) (f : α → β)
    (k : String) :
    ((l.map (fun kv => (kv.1, f kv.2))).lookup k) = (l.lookup k).map f := by
  induction l with
  | nil => rfl
  | cons kv rest ih =>
    rcases kv with ⟨k0, v0⟩
    by_cases hk : k = k0
    · subst hk; simp [lookup_cons_self]
    · simpa [lookup_cons_ne _ _ hk] using ih

theorem lookup_filter_eq_of_sat {α : Type} {l : List (String × α)}
    {p : String × α → Bool} {k : String} {v : α}
    (hnd : (l.map Prod.fst).Nodup) (hv : l.lookup k = some v)
    (hp : p (k, v) = true) : (l.filter p).lookup k = some v := by
  induction l with
  | nil => simp [List.lookup] at hv
  | cons kv rest ih =>
    rcases kv with ⟨k0, v0⟩
    rw [List.map_cons] at hnd
    rcases List.nodup_cons.mp hnd with ⟨hk0, hndr⟩
    by_cases hk : k = k0
    · subst hk
      rw [lookup_cons_self] at hv
      cases hv
      rw [List.filter_cons, if_pos hp]
      exact lookup_cons_self _ _ _
    · rw [lookup_cons_ne _ _ hk] at hv
      rw [List.filter_cons]
      by_cases hp0 : p (k0, v0)
      · rw [if_pos hp0, lookup_cons_ne _ _ hk]
        exact ih hndr hv
      · rw [if_neg hp0]
        exact ih hndr hv

theorem json_dumps_default_eq (obj : List (String × PyValue)) :
    json_dumps true obj = some (obj.map (fun kv => (kv.1, dumpsDefault kv.2))) := by
  induction obj with
  | nil => rfl
  | cons kv rest ih =>
    rcases kv with ⟨k, v⟩
    cases v <;> simp [json_dumps, dumpsValue, dumpsDefault, ih]

theorem trace_action_completed_eq (action message : String) (args : List String)
    (kwargs : List (String × String)) (trace_id : String) (w m0 m1 : Rat)
    (fm : String) (hr : renderMessage message args kwargs = some fm) :
    trace_action action message args kwargs trace_id w m0 m1 .completed =
      ([⟨TRACE, traceMessage action fm "enter",
          [("action", .serializable (.jstr action)),
           ("event", .serializable (.jstr "enter")),
           ("trace_id", .serializable (.jstr trace_id)),
           ("start_time", .serializable (.jnum w))]⟩,
        ⟨TRACE, traceMessage action fm "exit",
          [("action", .serializable (.jstr action)),
           ("event", .serializable (.jstr "exit")),
           ("trace_id", .serializable (.jstr trace_id)),
           ("duration", .serializable (.jnum (m1 - m0)))]⟩],
       .completed) := by
  simp [trace_action, hr]

theorem trace_action_cancelled_eq (action message : String) (args : List String)
    (kwargs : List (String × String)) (trace_id : String) (w m0 m1 : Rat)
    (fm : String) (hr : renderMessage message args kwargs = some fm) :
    trace_action action message args kwargs trace_id w m0 m1 .cancelled =
      ([⟨TRACE, traceMessage action fm "enter",
          [("action", .serializable (.jstr action)),
           ("event", .serializable (.jstr "enter")),
           ("trace_id", .serializable (.jstr trace_id)),
           ("start_time", .serializable (.jnum w))]⟩,
        ⟨TRACE, traceMessage action fm "cancel",
          [("action", .serializable (.jstr action)),
           ("event", .serializable (.jstr "cancel")),
           ("trace_id", .serializable (.jstr trace_id)),
           ("duration", .serializable (.jnum (m1 - m0)))]⟩],
       .cancelled) := by
  simp [trace_action, hr]

theorem trace_action_failed_eq (action message : String) (args : List String)
    (kwargs : List (String × String)) (trace_id : String) (w m0 m1 : Rat)
    (fm m ty st : String) (hr : renderMessage message args kwargs = some fm) :
    trace_action action message args kwargs trace_id w m0 m1 (.failed m ty st) =
      ([⟨TRACE, traceMessage action fm "enter",
          [("action", .serializable (.jstr action)),
           ("event", .serializable (.jstr "enter")),
           ("trace_id", .serializable (.jstr trace_id)),
           ("start_time", .serializable (.jnum w))]⟩,
        ⟨TRACE, traceMessage action fm "error",
          [("action", .serializable (.jstr action)),
           ("event", .serializable (.jstr "error")),
           ("trace_id", .serializable (.jstr trace_id)),
           ("duration", .serializable (.jnum (m1 - m0))),
           ("error", .serializable (.jstr m)),
           ("error_type", .serializable (.jstr ty)),
           ("stacktrace", .serializable (.jstr st))]⟩],
       .failed m ty st) := by
  simp [trace_action, hr]

theorem Activation.emits_pair (a : Activation) (fm : String)
    (hr : renderMessage a.message a.args a.kwargs = some fm) :
    ∃ e t, a.emits = [e, t] ∧
      e.extras.lookup "event" = some (.serializable (.jstr "enter")) ∧
      e.extras.lookup "start_time" =
        some (.serializable (.jnum a.start_wall)) ∧
      (t.extras.lookup "event" = some (.serializable (.jstr "exit")) ∨
       t.extras.lookup "event" = some (.serializable (.jstr "cancel")) ∨
       t.extras.lookup "event" = some (.serializable (.jstr "error"))) := by
  cases ho : a.outcome with
  | completed =>
    rw [Activation.emits, ho,
      trace_action_completed_eq _ _ _ _ _ _ _ _ fm hr]
    exact ⟨_, _, rfl, by simp [List.lookup], by simp [List.lookup],
      Or.inl (by simp [List.lookup])⟩
  | cancelled =>
    rw [Activation.emits, ho,
      trace_action_cancelled_eq _ _ _ _ _ _ _ _ fm hr]
    exact ⟨_, _, rfl, by simp [List.lookup], by simp [List.lookup],
      Or.inr (Or.inl (by simp [List.lookup]))⟩
  | failed m ty st =>
    rw [Activation.emits, ho,
      trace_action_failed_eq _ _ _ _ _ _ _ _ fm m ty st hr]
    exact ⟨_, _, rfl, by simp [List.lookup], by simp [List.lookup],
      Or.inr (Or.inr (by simp [List.lookup]))⟩

theorem Activation.emits_traceId (a : Activation) (e : LogEmit)
    (he : e ∈ a.emits) :
    e.extras.lookup "trace_id" =
      some (.serializable (.jstr a.trace_id)) := by
  rcases hr : renderMessage a.message a.args a.kwargs with _ | fm
  · rw [Activation.emits] at he
    simp [trace_action, hr] at he
  · cases ho : a.outcome with
    | completed =>
      rw [Activation.emits, ho,
        trace_action_completed_eq _ _ _ _ _ _ _ _ fm hr] at he
      simp only [List.mem_cons, List.not_mem_nil, or_false] at he
      rcases he with rfl | rfl <;> simp [List.lookup]
    | cancelled =>
      rw [Activation.emits, ho,
        trace_action_cancelled_eq _ _ _ _ _ _ _ _ fm hr] at he
      simp only [List.mem_cons, List.not_mem_nil, or_false] at he
      rcases he with rfl | rfl <;> simp [List.lookup]
    | failed m ty st =>
      rw [Activation.emits, ho,
        trace_action_failed_eq _ _ _ _ _ _ _ _ fm m ty st hr] at he
      simp only [List.mem_cons, List.not_mem_nil, or_false] at he
      rcases he with rfl | rfl <;> simp [List.lookup]

theorem Activation.emits_filter_self (a : Activation) :
    a.emits.filter (fun r => r.hasTraceId a.trace_id) = a.emits := by
  apply List.filter_eq_self.mpr
  intro r hr
  simp only [LogEmit.hasTraceId, decide_eq_true_eq]
  exact Activation.emits_traceId a r hr

theorem Activation.emits_filter_ne (a : Activation) (tid : String)
    (h : a.trace_id ≠ tid) :
    a.emits.filter (fun r => r.hasTraceId tid) = [] := by
  apply List.filter_eq_nil_iff.mpr
  intro r hr
  simp only [LogEmit.hasTraceId, decide_eq_true_eq]
  rw [Activation.emits_traceId a r hr]
  intro hc
  exact h (by simpa using hc)

theorem filter_flatten_emits_nil (acts : List Activation) (tid : String)
    (hall : ∀ b ∈ acts, b.trace_id ≠ tid) :
    ((acts.map Activation.emits).flatten.filter
      (fun r => r.hasTraceId tid)) = [] := by
  induction acts with
  | nil => rfl
  | cons c rest ih =>
    rw [List.map_cons, List.flatten_cons, List.filter_append]
    rw [Activation.emits_filter_ne c tid (hall c (List.mem_cons_self _ _))]
    rw [ih (fun b hb => hall b (List.mem_cons_of_mem _ hb))]
    rfl

theorem filter_join_emits_of_mem (acts : List Activation) (a : Activation)
    (ha : a ∈ acts)
    (hids : acts.Pairwise (fun b c => b.trace_id ≠ c.trace_id)) :
    ((acts.map Activation.emits).flatten.filter
      (fun r => r.hasTraceId a.trace_id)) = a.emits := by
  induction acts with
  | nil => cases ha
  | cons b rest ih =>
    rcases List.pairwise_cons.mp hids with ⟨hb, hrest⟩
    rw [List.map_cons, List.flatten_cons, List.filter_append]
    rcases List.mem_cons.mp ha with heq | hmem
    · subst heq
      rw [Activation.emits_filter_self]
      rw [filter_flatten_emits_nil rest a.trace_id
        (fun c hc => Ne.symm (hb c hc))]
      rw [List.append_nil]
    · rw [Activation.emits_filter_ne b a.trace_id (hb a hmem)]
      rw [ih hmem hrest]
      rfl

/-- Claim C1: in a run of activations whose message renderings succeed and whose
generated trace ids are pairwise distinct (the collision-freeness the
uuid generator provides), every activation emits exactly two records — an
`enter` record carrying `start_time` equal to the wall clock at entry,
then one terminal record (`exit`, `cancel` or `error`) — both carrying the
activation's trace id; and across the whole run, the records carrying that
trace id are exactly this pair, in enter-before-terminal order, whatever
the outcome of the wrapped work. -/
theorem trace_action_enter_then_terminal
    (acts : List Activation) (a : Activation) (ha : a ∈ acts)
    (hrender : ∀ b ∈ acts, renderMessage b.message b.args b.kwargs ≠ none)
    (hids : acts.Pairwise (fun b c => b.trace_id ≠ c.trace_id)) :
    ∃ e t, a.emits = [e, t] ∧
      e.extras.lookup "event" = some (.serializable (.jstr "enter")) ∧
      e.extras.lookup "start_time" =
        some (.serializable (.jnum a.start_wall)) ∧
      (t.extras.lookup "event" = some (.serializable (.jstr "exit")) ∨
       t.extras.lookup "event" = some (.serializable (.jstr "cancel")) ∨
       t.extras.lookup "event" = some (.serializable (.jstr "error"))) ∧
      (∀ r ∈ a.emits, r.extras.lookup "trace_id" =
        some (.serializable (.jstr a.trace_id))) ∧
      ((acts.map Activation.emits).flatten.filter
        (fun r => r.hasTraceId a.trace_id)) = [e, t] := by
  rcases hr : renderMessage a.message a.args a.kwargs with _ | fm
  · exact absurd hr (hrender a ha)
  · rcases Activation.emits_pair a fm hr with ⟨e, t, hpair, hev, hst, hterm⟩
    refine ⟨e, t, hpair, hev, hst, hterm,
      fun r hrm => Activation.emits_traceId a r hrm, ?_⟩
    rw [filter_join_emits_of_mem acts a ha hids, hpair]

theorem trace_action_enter_then_terminal_witness :
    ∃ e t,
      (Activation.mk "save" "writing %s" ["f.txt"] [] "idA" 100 0 1
        WorkOutcome.completed).emits = [e, t] ∧
      e.extras.lookup "event" = some (.serializable (.jstr "enter")) ∧
      e.extras.lookup "start_time" = some (.serializable (.jnum 100)) ∧
      (t.extras.lookup "event" = some (.serializable (.jstr "exit")) ∨
       t.extras.lookup "event" = some (.serializable (.jstr "cancel")) ∨
       t.extras.lookup "event" = some (.serializable (.jstr "error"))) ∧
      (∀ r ∈ (Activation.mk "save" "writing %s" ["f.txt"] [] "idA" 100 0 1
          WorkOutcome.completed).emits,
        r.extras.lookup "trace_id" = some (.serializable (.jstr "idA"))) ∧
      (([Activation.mk "save" "writing %s" ["f.txt"] [] "idA" 100 0 1
           WorkOutcome.completed,
         Activation.mk "load" "reading" [] [] "idB" 200 0 2
           WorkOutcome.cancelled].map Activation.emits).flatten.filter
        (fun r => r.hasTraceId "idA")) = [e, t] :=
  trace_action_enter_then_terminal
    [Activation.mk "save" "writing %s" ["f.txt"] [] "idA" 100 0 1
       WorkOutcome.completed,
     Activation.mk "load" "reading" [] [] "idB" 200 0 2
       WorkOutcome.cancelled]
    (Activation.mk "save" "writing %s" ["f.txt"] [] "idA" 100 0 1
       WorkOutcome.completed)
    (List.mem_cons_self _ _)
    (by
      intro b hb
      simp only [List.mem_cons, List.not_mem_nil, or_false] at hb
      rcases hb with rfl | rfl <;> decide)
    (by decide)

/-- Claim C2: a failure of the wrapped work is classified exactly once — a
cancellation signal yields a `cancel` terminal record with the elapsed
duration, any other failure yields an `error` terminal record carrying the
failure's message, kind name and captured trace text — and in every case
the original outcome propagates to the caller unchanged: the scope never
converts, suppresses or swallows it. -/
theorem trace_action_failure_classification
    (action message : String) (args : List String)
    (kwargs : List (String × String)) (trace_id : String)
    (w m0 m1 : Rat) (outcome : WorkOutcome) (fm : String)
    (h : renderMessage message args kwargs = some fm) :
    (outcome = .completed →
      (trace_action action message args kwargs trace_id w m0 m1 outcome).2 =
        .completed) ∧
    (outcome = .cancelled →
      ∃ e t,
        (trace_action action message args kwargs trace_id w m0 m1 outcome).1 =
          [e, t] ∧
        t.extras.lookup "event" = some (.serializable (.jstr "cancel")) ∧
        t.extras.lookup "duration" =
          some (.serializable (.jnum (m1 - m0))) ∧
        (trace_action action message args kwargs trace_id w m0 m1 outcome).2 =
          .cancelled) ∧
    (∀ m ty st, outcome = .failed m ty st →
      ∃ e t,
        (trace_action action message args kwargs trace_id w m0 m1 outcome).1 =
          [e, t] ∧
        t.extras.lookup "event" = some (.serializable (.jstr "error")) ∧
        t.extras.lookup "error" = some (.serializable (.jstr m)) ∧
        t.extras.lookup "error_type" = some (.serializable (.jstr ty)) ∧
        t.extras.lookup "stacktrace" = some (.serializable (.jstr st)) ∧
        t.extras.lookup "duration" =
          some (.serializable (.jnum (m1 - m0))) ∧
        (trace_action action message args kwargs trace_id w m0 m1 outcome).2 =
          .failed m ty st) := by
  refine ⟨?_, ?_, ?_⟩
  · rintro rfl
    rw [trace_action_completed_eq action message args kwargs trace_id w m0 m1
      fm h]
  · rintro rfl
    rw [trace_action_cancelled_eq action message args kwargs trace_id w m0 m1
      fm h]
    exact ⟨_, _, rfl, by simp [List.lookup], by simp [List.lookup], rfl⟩
  · rintro m ty st rfl
    rw [trace_action_failed_eq action message args kwargs trace_id w m0 m1
      fm m ty st h]
    exact ⟨_, _, rfl, by simp [List.lookup], by simp [List.lookup],
      by simp [List.lookup], by simp [List.lookup], by simp [List.lookup],
      rfl⟩

theorem trace_action_failure_classification_witness :
    (WorkOutcome.failed "boom" "ValueError" "tb" = WorkOutcome.completed →
      (trace_action "calc" "run" [] [] "idC" 50 2 5
        (WorkOutcome.failed "boom" "ValueError" "tb")).2 = .completed) ∧
    (WorkOutcome.failed "boom" "ValueError" "tb" = WorkOutcome.cancelled →
      ∃ e t,
        (trace_action "calc" "run" [] [] "idC" 50 2 5
          (WorkOutcome.failed "boom" "ValueError" "tb")).1 = [e, t] ∧
        t.extras.lookup "event" = some (.serializable (.jstr "cancel")) ∧
        t.extras.lookup "duration" =
          some (.serializable (.jnum ((5 : Rat) - 2))) ∧
        (trace_action "calc" "run" [] [] "idC" 50 2 5
          (WorkOutcome.failed "boom" "ValueError" "tb")).2 = .cancelled) ∧
    (∀ m ty st,
      WorkOutcome.failed "boom" "ValueError" "tb" = WorkOutcome.failed m ty st →
      ∃ e t,
        (trace_action "calc" "run" [] [] "idC" 50 2 5
          (WorkOutcome.failed "boom" "ValueError" "tb")).1 = [e, t] ∧
        t.extras.lookup "event" = some (.serializable (.jstr "error")) ∧
        t.extras.lookup "error" = some (.serializable (.jstr m)) ∧
        t.extras.lookup "error_type" = some (.serializable (.jstr ty)) ∧
        t.extras.lookup "stacktrace" = some (.serializable (.jstr st)) ∧
        t.extras.lookup "duration" =
          some (.serializable (.jnum ((5 : Rat) - 2))) ∧
        (trace_action "calc" "run" [] [] "idC" 50 2 5
          (WorkOutcome.failed "boom" "ValueError" "tb")).2 =
          .failed m ty st) :=
  trace_action_failure_classification "calc" "run" [] [] "idC" 50 2 5
    (WorkOutcome.failed "boom" "ValueError" "tb") "run" (by rfl)

/-- Claim C8: if rendering the message template fails (bad substitution), the
activation emits no records at all — not even `enter` — and the rendering
failure propagates directly to the caller. -/
theorem trace_action_render_failure_no_records
    (action message : String) (args : List String)
    (kwargs : List (String × String)) (trace_id : String)
    (w m0 m1 : Rat) (outcome : WorkOutcome)
    (h : renderMessage message args kwargs = none) :
    trace_action action message args kwargs trace_id w m0 m1 outcome =
      ([], .renderFailed) := by
  simp [trace_action, h]

theorem trace_action_render_failure_no_records_witness :
    trace_action "build" "compiling %s %s" ["mod.x"] [] "id0" 3 5 9
        WorkOutcome.completed = ([], .renderFailed) :=
  trace_action_render_failure_no_records "build" "compiling %s %s" ["mod.x"] []
    "id0" 3 5 9 WorkOutcome.completed (by rfl)

/-- Claim C7: the message template is rendered exactly once, at entry — by
positional substitution when positional arguments are supplied, by keyword
substitution when keyword arguments are supplied, verbatim when neither is —
and every emitted record carries the rendered template annotated with the
action name and the event tag; in particular
`trace_action("build", "compiling %s", "mod.x")` yields the enter message
`Action: build - compiling mod.x (enter)` and, on normal completion, the
exit message `Action: build - compiling mod.x (exit)`. -/
theorem trace_action_message_rendering
    (action message : String) (args : List String)
    (kwargs : List (String × String)) (trace_id : String)
    (w m0 m1 : Rat) (outcome : WorkOutcome) (fm : String)
    (h : renderMessage message args kwargs = some fm) :
    (args ≠ [] → (substPos message.data args).map String.mk = some fm) ∧
    (args = [] → kwargs ≠ [] →
      (substKw message.data kwargs).map String.mk = some fm) ∧
    (args = [] → kwargs = [] → fm = message) ∧
    ((trace_action action message args kwargs trace_id w m0 m1 outcome).1.map
        LogEmit.message =
      match outcome with
      | .completed => [traceMessage action fm "enter", traceMessage action fm "exit"]
      | .cancelled => [traceMessage action fm "enter", traceMessage action fm "cancel"]
      | .failed _ _ _ => [traceMessage action fm "enter", traceMessage action fm "error"]) ∧
    ((trace_action "build" "compiling %s" ["mod.x"] [] trace_id w m0 m1
        WorkOutcome.completed).1.map LogEmit.message =
      ["Action: build - compiling mod.x (enter)",
       "Action: build - compiling mod.x (exit)"]) := by
  refine ⟨?_, ?_, ?_, ?_, ?_⟩
  · intro ha
    rw [renderMessage, if_pos ha] at h
    exact h
  · intro ha hk
    rw [renderMessage, if_neg (by simp [ha]), if_pos hk] at h
    exact h
  · intro ha hk
    rw [renderMessage, if_neg (by simp [ha]), if_neg (by simp [hk])] at h
    exact Option.some.inj h.symm
  · cases outcome <;> simp [trace_action, h]
  · rfl

theorem trace_action_message_rendering_witness :
    ((["mod.x"] : List String) ≠ [] →
      (substPos "compiling %s".data ["mod.x"]).map String.mk =
        some "compiling mod.x") ∧
    (["mod.x"] = ([] : List String) → ([] : List (String × String)) ≠ [] →
      (substKw "compiling %s".data []).map String.mk = some "compiling mod.x") ∧
    (["mod.x"] = ([] : List String) → ([] : List (String × String)) = [] →
      "compiling mod.x" = "compiling %s") ∧
    ((trace_action "build" "compiling %s" ["mod.x"] [] "id1" 4 6 7
        WorkOutcome.completed).1.map LogEmit.message =
      match WorkOutcome.completed with
      | .completed => [traceMessage "build" "compiling mod.x" "enter",
                       traceMessage "build" "compiling mod.x" "exit"]
      | .cancelled => [traceMessage "build" "compiling mod.x" "enter",
                       traceMessage "build" "compiling mod.x" "cancel"]
      | .failed _ _ _ => [traceMessage "build" "compiling mod.x" "enter",
                          traceMessage "build" "compiling mod.x" "error"]) ∧
    ((trace_action "build" "compiling %s" ["mod.x"] [] "id1" 4 6 7
        WorkOutcome.completed).1.map LogEmit.message =
      ["Action: build - compiling mod.x (enter)",
       "Action: build - compiling mod.x (exit)"]) :=
  trace_action_message_rendering "build" "compiling %s" ["mod.x"] [] "id1" 4 6 7
    WorkOutcome.completed "compiling mod.x" (by rfl)

/-- Claim C9: every terminal record's `duration` equals the elapsed monotonic time
`end_monotonic - start_monotonic`, is nonnegative whenever the monotonic
clock is (as its contract guarantees) nondecreasing, and the `enter` record
carries no duration.  The final conjunct quantifies over every wall-clock
value: the duration field never depends on it. -/
theorem trace_action_duration_monotonic
    (action message : String) (args : List String)
    (kwargs : List (String × String)) (trace_id : String)
    (w m0 m1 : Rat) (outcome : WorkOutcome) (fm : String)
    (hr : renderMessage message args kwargs = some fm) (hm : m0 ≤ m1) :
    ∃ e t,
      (trace_action action message args kwargs trace_id w m0 m1 outcome).1 =
        [e, t] ∧
      t.extras.lookup "duration" = some (.serializable (.jnum (m1 - m0))) ∧
      0 ≤ m1 - m0 ∧
      e.extras.lookup "duration" = none ∧
      (∀ w2 : Rat,
        (trace_action action message args kwargs trace_id w2 m0 m1 outcome).1.map
            (fun rec => rec.extras.lookup "duration") =
          [none, some (.serializable (.jnum (m1 - m0)))]) := by
  have hd : 0 ≤ m1 - m0 := sub_nonneg.mpr hm
  cases outcome with
  | completed =>
    rw [trace_action_completed_eq action message args kwargs trace_id w m0 m1 fm hr]
    refine ⟨_, _, rfl, by simp [List.lookup], hd, by simp [List.lookup], fun w2 => ?_⟩
    rw [trace_action_completed_eq action message args kwargs trace_id w2 m0 m1 fm hr]
    simp [List.lookup]
  | cancelled =>
    rw [trace_action_cancelled_eq action message args kwargs trace_id w m0 m1 fm hr]
    refine ⟨_, _, rfl, by simp [List.lookup], hd, by simp [List.lookup], fun w2 => ?_⟩
    rw [trace_action_cancelled_eq action message args kwargs trace_id w2 m0 m1 fm hr]
    simp [List.lookup]
  | failed m ty st =>
    rw [trace_action_failed_eq action message args kwargs trace_id w m0 m1 fm m ty st hr]
    refine ⟨_, _, rfl, by simp [List.lookup], hd, by simp [List.lookup], fun w2 => ?_⟩
    rw [trace_action_failed_eq action message args kwargs trace_id w2 m0 m1 fm m ty st hr]
    simp [List.lookup]

theorem trace_action_duration_monotonic_witness :
    ∃ e t,
      (trace_action "a" "m" [] [] "id2" 7 0 2 WorkOutcome.cancelled).1 =
        [e, t] ∧
      t.extras.lookup "duration" =
        some (.serializable (.jnum ((2 : Rat) - 0))) ∧
      0 ≤ (2 : Rat) - 0 ∧
      e.extras.lookup "duration" = none ∧
      (∀ w2 : Rat,
        (trace_action "a" "m" [] [] "id2" w2 0 2 WorkOutcome.cancelled).1.map
            (fun rec => rec.extras.lookup "duration") =
          [none, some (.serializable (.jnum ((2 : Rat) - 0)))]) :=
  trace_action_duration_monotonic "a" "m" [] [] "id2" 7 0 2
    WorkOutcome.cancelled "m" (by rfl) (by norm_num)

/-- Claim C10: when both positional and keyword arguments are supplied, the
positional ones win: the message is rendered by positional substitution and
the activation behaves exactly as if the keyword arguments had been
dropped. -/
theorem trace_action_positional_precedence
    (action message : String) (args : List String)
    (kwargs : List (String × String)) (trace_id : String)
    (w m0 m1 : Rat) (outcome : WorkOutcome)
    (ha : args ≠ []) (_hk : kwargs ≠ []) :
    renderMessage message args kwargs =
      (substPos message.data args).map String.mk ∧
    trace_action action message args kwargs trace_id w m0 m1 outcome =
      trace_action action message args [] trace_id w m0 m1 outcome := by
  refine ⟨by rw [renderMessage, if_pos ha], ?_⟩
  rw [trace_action, trace_action, renderMessage, renderMessage, if_pos ha,
    if_pos ha]

theorem trace_action_positional_precedence_witness :
    renderMessage "hi %s" ["there"] [("k", "v")] =
      (substPos "hi %s".data ["there"]).map String.mk ∧
    trace_action "a" "hi %s" ["there"] [("k", "v")] "id3" 1 2 3
        WorkOutcome.completed =
      trace_action "a" "hi %s" ["there"] [] "id3" 1 2 3
        WorkOutcome.completed :=
  trace_action_positional_precedence "a" "hi %s" ["there"] [("k", "v")] "id3"
    1 2 3 WorkOutcome.completed (by simp) (by simp)

theorem formatBase_lookup_timestamp (r : LogRecord) :
    (formatBase r).lookup "timestamp" =
      some (.serializable (.jstr (TraceFormatter.formatTime r.created))) :=
  lookup_cons_self _ _ _

theorem formatBase_lookup_level (r : LogRecord) :
    (formatBase r).lookup "level" =
      some (.serializable (.jstr r.levelname)) := by
  rw [formatBase, lookup_cons_ne _ _ (by decide)]
  exact lookup_cons_self _ _ _

theorem formatBase_lookup_message (r : LogRecord) :
    (formatBase r).lookup "message" =
      some (.serializable (.jstr r.message)) := by
  rw [formatBase, lookup_cons_ne _ _ (by decide),
    lookup_cons_ne _ _ (by decide)]
  exact lookup_cons_self _ _ _

theorem formatBase_lookup_ne (r : LogRecord) {k : String}
    (h1 : k ≠ "timestamp") (h2 : k ≠ "level") (h3 : k ≠ "message") :
    (formatBase r).lookup k = none := by
  rw [formatBase, lookup_cons_ne _ _ h1, lookup_cons_ne _ _ h2,
    lookup_cons_ne _ _ h3]
  rfl

theorem formatCtx_trace_action (r : LogRecord) (hlv : r.levelname = "TRACE")
    (hact : hasAttr r.extras "action" = true) :
    formatCtx r =
      formatBase r ++
        fixedActionKeys.filterMap
          (fun k => (r.extras.lookup k).map (fun v => (k, v))) := by
  rw [formatCtx, if_neg (by simp [hlv]), if_pos hact]

theorem formatCtx_trace_action_lookup_fixed (r : LogRecord)
    (hlv : r.levelname = "TRACE") (hact : hasAttr r.extras "action" = true)
    {k : String} (hk : k ∈ fixedActionKeys) :
    (formatCtx r).lookup k = r.extras.lookup k := by
  rw [formatCtx_trace_action r hlv hact,
    lookup_append_of_none (formatBase_lookup_ne r
      (by rintro rfl; revert hk; decide)
      (by rintro rfl; revert hk; decide)
      (by rintro rfl; revert hk; decide))]
  exact lookup_filterMap_of_mem fixedActionKeys _ (by decide) hk

theorem formatCtx_trace_action_lookup_other (r : LogRecord)
    (hlv : r.levelname = "TRACE") (hact : hasAttr r.extras "action" = true)
    {k : String} (h1 : k ≠ "timestamp") (h2 : k ≠ "level")
    (h3 : k ≠ "message") (hfx : k ∉ fixedActionKeys) :
    (formatCtx r).lookup k = none := by
  rw [formatCtx_trace_action r hlv hact,
    lookup_append_of_none (formatBase_lookup_ne r h1 h2 h3)]
  exact lookup_filterMap_of_not_mem fixedActionKeys _ hfx

/-- Claim C5: `TraceFormatter.format` never raises: because the final encode is
`json.dumps(output, default=str)`, every record — including one carrying an
extra attribute whose value is not natively JSON-representable — produces
an output object, and every non-representable value appears in it as its
textual (string) representation. -/
theorem trace_formatter_never_raises (r : LogRecord) :
    ∃ out, TraceFormatter.format r = some out ∧
      ∀ k s, (k, PyValue.nonSerializable s) ∈ TraceFormatter.buildOutput r →
        (k, JValue.jstr s) ∈ out := by
  refine ⟨_, json_dumps_default_eq (TraceFormatter.buildOutput r), ?_⟩
  intro k s hmem
  exact List.mem_map.mpr ⟨(k, .nonSerializable s), hmem, rfl⟩

theorem trace_formatter_never_raises_witness :
    ∃ out,
      TraceFormatter.format
        (LogRecord.mk "INFO" 0 "hello" none none none
          [("custom", PyValue.nonSerializable "<object at 0x1>")]) =
        some out ∧
      ("custom", JValue.jstr "<object at 0x1>") ∈ out := by
  obtain ⟨out, hf, hmem⟩ :=
    trace_formatter_never_raises
      (LogRecord.mk "INFO" 0 "hello" none none none
        [("custom", PyValue.nonSerializable "<object at 0x1>")])
  exact ⟨out, hf, hmem "custom" "<object at 0x1>" (by decide)⟩

/-- Claim C6, counterexample: a record at the action-trace severity that carries
an `action` attribute and one further ad hoc extra attribute.  The
formatter's catch-all loop copies the ad hoc attribute into the serialized
object as well, so the emitted fields are not "exactly" the base fields
plus the fixed action set, refuting the claim as stated. -/
theorem trace_formatter_fixed_set_counterexample :
    ∃ out,
      TraceFormatter.format
        (LogRecord.mk "TRACE" 0 "m" none none none
          [("action", PyValue.serializable (.jstr "a")),
           ("event", PyValue.serializable (.jstr "enter")),
           ("trace_id", PyValue.serializable (.jstr "t1")),
           ("start_time", PyValue.serializable (.jnum 5)),
           ("custom_tag", PyValue.serializable (.jstr "x"))]) = some out ∧
      out.lookup "custom_tag" = some (JValue.jstr "x") ∧
      "custom_tag" ∉ ["timestamp", "level", "message"] ++ fixedActionKeys :=
  ⟨_, rfl, rfl, by decide⟩

/-- Claim C6 as amended: for a record at the action-trace severity carrying an
`action` attribute, the serialized object holds the base
`timestamp`/`level`/`message` fields and, beyond them, the fixed set
`action, event, trace_id, start_time, duration, error, error_type,
stacktrace` restricted to the attributes actually present on the record —
an attribute absent for the record's event kind is omitted entirely, never
emitted as a null placeholder — plus (the amendment forced by the
counterexample) every further ad hoc extra attribute outside the
standard-metadata exclusion list, and nothing else. -/
theorem trace_formatter_action_fields (r : LogRecord)
    (hlv : r.levelname = "TRACE")
    (hact : hasAttr r.extras "action" = true)
    (hnd : (r.extras.map Prod.fst).Nodup)
    (hbase : ∀ k ∈ r.extras.map Prod.fst,
      k ≠ "timestamp" ∧ k ≠ "level" ∧ k ≠ "message") :
    ∃ out, TraceFormatter.format r = some out ∧
      out.lookup "timestamp" =
        some (.jstr (TraceFormatter.formatTime r.created)) ∧
      out.lookup "level" = some (.jstr r.levelname) ∧
      out.lookup "message" = some (.jstr r.message) ∧
      (∀ k, k ∈ fixedActionKeys →
        out.lookup k = (r.extras.lookup k).map dumpsDefault) ∧
      (∀ k v, (k, v) ∈ r.extras → k ∉ standardAttrKeys →
        out.lookup k = some (dumpsDefault v)) ∧
      (∀ kv ∈ out, kv.1 = "timestamp" ∨ kv.1 = "level" ∨ kv.1 = "message" ∨
        (∃ v, (kv.1, v) ∈ r.extras ∧ kv.1 ∉ standardAttrKeys)) := by
  refine ⟨_, json_dumps_default_eq (TraceFormatter.buildOutput r),
    ?_, ?_, ?_, ?_, ?_, ?_⟩
  · rw [lookup_map_value, TraceFormatter.buildOutput,
      lookup_append_of_some
        (by
          rw [formatCtx_trace_action r hlv hact]
          exact lookup_append_of_some (formatBase_lookup_timestamp r))]
    rfl
  · rw [lookup_map_value, TraceFormatter.buildOutput,
      lookup_append_of_some
        (by
          rw [formatCtx_trace_action r hlv hact]
          exact lookup_append_of_some (formatBase_lookup_level r))]
    rfl
  · rw [lookup_map_value, TraceFormatter.buildOutput,
      lookup_append_of_some
        (by
          rw [formatCtx_trace_action r hlv hact]
          exact lookup_append_of_some (formatBase_lookup_message r))]
    rfl
  · intro k hk
    rw [lookup_map_value, TraceFormatter.buildOutput]
    have hctx : (formatCtx r).lookup k = r.extras.lookup k :=
      formatCtx_trace_action_lookup_fixed r hlv hact hk
    rcases he : r.extras.lookup k with _ | v
    · rw [lookup_append_of_none (hctx.trans he),
        lookup_filter_of_none he]
    · rw [lookup_append_of_some (hctx.trans he)]
  · intro k v hmem hstd
    have hlk : r.extras.lookup k = some v :=
      lookup_eq_some_of_mem_nodup hnd hmem
    rw [lookup_map_value, TraceFormatter.buildOutput]
    by_cases hfx : k ∈ fixedActionKeys
    · rw [lookup_append_of_some
        ((formatCtx_trace_action_lookup_fixed r hlv hact hfx).trans hlk)]
      rfl
    · rcases hbase k (List.mem_map.mpr ⟨(k, v), hmem, rfl⟩) with ⟨h1, h2, h3⟩
      have hctx : (formatCtx r).lookup k = none :=
        formatCtx_trace_action_lookup_other r hlv hact h1 h2 h3 hfx
      rw [lookup_append_of_none hctx,
        lookup_filter_eq_of_sat hnd hlk
          (by simp only [hctx, Option.isNone_none, Bool.true_and]; simpa using hstd)]
      rfl
  · intro kv hkv
    rcases List.mem_map.mp hkv with ⟨kv0, hkv0, rfl⟩
    rcases List.mem_append.mp hkv0 with hctx | hfil
    · rw [formatCtx_trace_action r hlv hact] at hctx
      rcases List.mem_append.mp hctx with hb | hf
      · rw [formatBase] at hb
        simp only [List.mem_cons, List.not_mem_nil, or_false] at hb
        rcases hb with rfl | rfl | rfl
        · exact Or.inl rfl
        · exact Or.inr (Or.inl rfl)
        · exact Or.inr (Or.inr (Or.inl rfl))
      · rcases List.mem_filterMap.mp hf with ⟨k1, hk1, hmap⟩
        rcases hv : r.extras.lookup k1 with _ | v
        · rw [hv] at hmap; cases hmap
        · rw [hv] at hmap
          cases hmap
          refine Or.inr (Or.inr (Or.inr ⟨v, lookup_mem hv, ?_⟩))
          have hfxstd : ∀ k0 ∈ fixedActionKeys, k0 ∉ standardAttrKeys := by
            decide
          exact hfxstd k1 hk1
    · rcases List.mem_filter.mp hfil with ⟨hmem, hp⟩
      simp only [Bool.and_eq_true] at hp
      rcases hp with ⟨_, hstd⟩
      refine Or.inr (Or.inr (Or.inr ⟨kv0.2, by simpa using hmem, ?_⟩))
      simpa using hstd

theorem trace_formatter_action_fields_witness :
    ∃ out,
      TraceFormatter.format
        (LogRecord.mk "TRACE" 0 "msg" none none none
          [("action", PyValue.serializable (.jstr "a")),
           ("event", PyValue.serializable (.jstr "exit")),
           ("trace_id", PyValue.serializable (.jstr "t2")),
           ("duration", PyValue.serializable (.jnum 3))]) = some out ∧
      out.lookup "timestamp" =
        some (.jstr (TraceFormatter.formatTime 0)) ∧
      out.lookup "level" = some (.jstr "TRACE") ∧
      out.lookup "message" = some (.jstr "msg") ∧
      (∀ k, k ∈ fixedActionKeys →
        out.lookup k =
          (([("action", PyValue.serializable (JValue.jstr "a")),
             ("event", PyValue.serializable (JValue.jstr "exit")),
             ("trace_id", PyValue.serializable (JValue.jstr "t2")),
             ("duration", PyValue.serializable (JValue.jnum 3))].lookup k).map
            dumpsDefault)) ∧
      (∀ k v,
        (k, v) ∈ [("action", PyValue.serializable (JValue.jstr "a")),
                  ("event", PyValue.serializable (JValue.jstr "exit")),
                  ("trace_id", PyValue.serializable (JValue.jstr "t2")),
                  ("duration", PyValue.serializable (JValue.jnum 3))] →
        k ∉ standardAttrKeys → out.lookup k = some (dumpsDefault v)) ∧
      (∀ kv ∈ out, kv.1 = "timestamp" ∨ kv.1 = "level" ∨ kv.1 = "message" ∨
        (∃ v, (kv.1, v) ∈
            [("action", PyValue.serializable (JValue.jstr "a")),
             ("event", PyValue.serializable (JValue.jstr "exit")),
             ("trace_id", PyValue.serializable (JValue.jstr "t2")),
             ("duration", PyValue.serializable (JValue.jnum 3))] ∧
          kv.1 ∉ standardAttrKeys)) :=
  trace_formatter_action_fields
    (LogRecord.mk "TRACE" 0 "msg" none none none
      [("action", PyValue.serializable (.jstr "a")),
       ("event", PyValue.serializable (.jstr "exit")),
       ("trace_id", PyValue.serializable (.jstr "t2")),
       ("duration", PyValue.serializable (.jnum 3))])
    rfl (by decide) (by decide) (by decide)

theorem getRequiredStr_inv {d : List (String × JValue)} {k s : String}
    (h : getRequiredStr d k = .ok s) : d.lookup k = some (.jstr s) := by
  rw [getRequiredStr] at h
  rcases hl : d.lookup k with _ | j
  · simp [hl] at h
  · rcases j with _ | b | q | s0
    · simp [hl] at h
    · simp [hl] at h
    · simp [hl] at h
    · simp only [hl] at h
      cases h
      rfl

theorem parseEvent_inv {s : String} {e : TraceEvent}
    (h : parseEvent s = .ok e) : s = e.toStr := by
  rw [parseEvent] at h
  split_ifs at h with c1 c2 c3 c4
  · cases h; exact c1
  · cases h; exact c2
  · cases h; exact c3
  · cases h; exact c4

theorem parseEvent_toStr (e : TraceEvent) : parseEvent e.toStr = .ok e := by
  cases e <;> rfl

theorem validate_event_inversion (d : List (String × JValue))
    (a : ActionTraceRecord) (h : ActionTraceRecord.validate d = .ok a) :
    d.lookup "event" = some (.jstr a.event.toStr) := by
  simp only [ActionTraceRecord.validate, bind, Except.bind, pure,
    Except.pure] at h
  split at h
  · exact Except.noConfusion h
  rename_i ts h1
  split at h
  · exact Except.noConfusion h
  rename_i lv h2
  split at h
  · exact Except.noConfusion h
  rename_i msg h3
  split at h
  · exact Except.noConfusion h
  rename_i act h4
  split at h
  · exact Except.noConfusion h
  rename_i evs h5
  split at h
  · exact Except.noConfusion h
  rename_i ev h6
  split at h
  · exact Except.noConfusion h
  rename_i tid h7
  split at h
  · exact Except.noConfusion h
  rename_i st h8
  split at h
  · exact Except.noConfusion h
  rename_i du h9
  split at h
  · exact Except.noConfusion h
  rename_i er h10
  split at h
  · exact Except.noConfusion h
  rename_i et h11
  split at h
  · exact Except.noConfusion h
  rename_i sk h12
  have ha : a = ⟨ts, lv, msg, act, ev, tid, st, du, er, et, sk⟩ :=
    (Except.ok.inj h).symm
  subst ha
  rw [getRequiredStr_inv h5, parseEvent_inv h6]

/-- Claim C4: `read_trace_file` discriminates each decoded line by presence of
the `action` key — constructing a validated `ActionTraceRecord` (whose
`event` is forced into `enter`/`exit`/`cancel`/`error` and whose required
fields are enforced) when present, a `SimpleTraceRecord` otherwise — and
any line that cannot be decoded as a mapping or fails validation fails the
entire read with an error: no partial result is returned and no line is
skipped. -/
theorem read_trace_file_all_or_nothing (lines : List JLine) :
    (∀ rs, read_trace_file lines = .ok rs →
      rs.length = lines.length ∧
      List.Forall₂ (fun l r => readTraceLine l = .ok r) lines rs) ∧
    (∀ l ∈ lines, (∀ r, readTraceLine l ≠ .ok r) →
      ∃ e, read_trace_file lines = .error e) ∧
    (∀ d rec, readTraceLine (JLine.dict d) = .ok rec →
      (hasJKey d "action" = true →
        ∃ a, rec = .action a ∧ ActionTraceRecord.validate d = .ok a ∧
          d.lookup "event" = some (.jstr a.event.toStr) ∧
          (a.event = .enter ∨ a.event = .exit ∨ a.event = .cancel ∨
            a.event = .error)) ∧
      (hasJKey d "action" = false →
        ∃ s, rec = .simple s ∧ SimpleTraceRecord.validate d = .ok s)) ∧
    (∀ content rec, readTraceLine (JLine.invalid content) ≠ .ok rec) := by
  refine ⟨?_, ?_, ?_, ?_⟩
  · intro rs h
    induction lines generalizing rs with
    | nil =>
      simp only [read_trace_file] at h
      cases h
      exact ⟨rfl, List.Forall₂.nil⟩
    | cons l rest ih =>
      simp only [read_trace_file] at h
      rcases hl : readTraceLine l with e | r <;> simp only [hl] at h
      · exact Except.noConfusion h
      rcases hrest : read_trace_file rest with e | rs0 <;>
        simp only [hrest] at h
      · exact Except.noConfusion h
      cases h
      rcases ih rs0 hrest with ⟨hlen, hfa⟩
      exact ⟨by simp [hlen], List.Forall₂.cons hl hfa⟩
  · induction lines with
    | nil => intro l hl
             cases hl
    | cons l0 rest ih =>
      intro l hl hbad
      rcases List.mem_cons.mp hl with rfl | hmem
      · rcases he : readTraceLine l with e | r
        · exact ⟨e, by simp only [read_trace_file, he]⟩
        · exact absurd he (hbad r)
      · rcases he : readTraceLine l0 with e | r
        · exact ⟨e, by simp only [read_trace_file, he]⟩
        · rcases ih l hmem hbad with ⟨e, herr⟩
          exact ⟨e, by simp only [read_trace_file, he, herr]⟩
  · intro d rec h
    simp only [readTraceLine] at h
    constructor
    · intro hk
      rw [if_pos hk] at h
      rcases hv : ActionTraceRecord.validate d with e | a <;>
        simp only [hv, Except.map, Functor.map] at h
      · exact Except.noConfusion h
      · cases h
        refine ⟨a, rfl, ?_, validate_event_inversion d a hv, ?_⟩
        · rfl
        · cases a.event
          · exact Or.inl rfl
          · exact Or.inr (Or.inl rfl)
          · exact Or.inr (Or.inr (Or.inl rfl))
          · exact Or.inr (Or.inr (Or.inr rfl))
    · intro hk
      rw [if_neg (by simp [hk])] at h
      rcases hv : SimpleTraceRecord.validate d with e | s0 <;>
        simp only [hv, Except.map, Functor.map] at h
      · exact Except.noConfusion h
      · cases h
        exact ⟨s0, rfl, rfl⟩
  · intro content rec h
    simp only [readTraceLine] at h
    exact Except.noConfusion h

theorem read_trace_file_all_or_nothing_witness :
    ∃ e,
      read_trace_file
        [JLine.dict [("timestamp", .jstr "t"), ("level", .jstr "INFO"),
           ("message", .jstr "m")],
         JLine.invalid "oops"] = .error e :=
  (read_trace_file_all_or_nothing
    [JLine.dict [("timestamp", .jstr "t"), ("level", .jstr "INFO"),
       ("message", .jstr "m")],
     JLine.invalid "oops"]).2.1 (JLine.invalid "oops") (by decide)
    (fun r h => Except.noConfusion h)

theorem toExtras_lookup (a : ActionTraceRecord) {k : String}
    (hk : k ∈ fixedActionKeys) : a.toExtras.lookup k = actionField a k :=
  lookup_filterMap_of_mem fixedActionKeys _ (by decide) hk

theorem toExtras_lookup_not_mem (a : ActionTraceRecord) {k : String}
    (hk : k ∉ fixedActionKeys) : a.toExtras.lookup k = none :=
  lookup_filterMap_of_not_mem fixedActionKeys _ hk

theorem toExtras_key_mem (a : ActionTraceRecord) {kv : String × PyValue}
    (h : kv ∈ a.toExtras) : kv.1 ∈ fixedActionKeys := by
  rcases List.mem_filterMap.mp h with ⟨k1, hk1, hmap⟩
  rcases hv : actionField a k1 with _ | v
  · rw [hv] at hmap; cases hmap
  · rw [hv] at hmap; cases hmap; exact hk1

theorem toExtras_hasAttr_action (a : ActionTraceRecord) :
    hasAttr a.toExtras "action" = true := by
  rw [hasAttr, toExtras_lookup a (by decide)]
  rfl

theorem buildOutput_action (a : ActionTraceRecord) (c : Rat) :
    TraceFormatter.buildOutput (TraceRecord.toLogRecord c (.action a)) =
      formatBase (TraceRecord.toLogRecord c (.action a)) ++ a.toExtras := by
  have hfb : ∀ kv : String × PyValue, kv ∈ a.toExtras →
      (formatBase (TraceRecord.toLogRecord c (.action a))).lookup kv.1 =
        none := by
    intro kv hkv
    have hf : ∀ k0 ∈ fixedActionKeys,
        k0 ≠ "timestamp" ∧ k0 ≠ "level" ∧ k0 ≠ "message" := by decide
    rcases hf kv.1 (toExtras_key_mem a hkv) with ⟨f1, f2, f3⟩
    exact formatBase_lookup_ne _ f1 f2 f3
  have hstd : ∀ kv : String × PyValue, kv ∈ a.toExtras →
      standardAttrKeys.contains kv.1 = false := by
    intro kv hkv
    have hf : ∀ k0 ∈ fixedActionKeys, k0 ∉ standardAttrKeys := by decide
    simpa using hf kv.1 (toExtras_key_mem a hkv)
  have hextras : (TraceRecord.toLogRecord c (.action a)).extras =
      a.toExtras := rfl
  by_cases hlv : a.level = "TRACE"
  · have hctx : formatCtx (TraceRecord.toLogRecord c (.action a)) =
        formatBase (TraceRecord.toLogRecord c (.action a)) ++ a.toExtras := by
      rw [formatCtx_trace_action _ hlv
        (by rw [hextras]; exact toExtras_hasAttr_action a)]
      congr 1
      rw [hextras]
      conv_rhs => rw [ActionTraceRecord.toExtras]
      apply List.filterMap_congr
      intro k hk
      rw [toExtras_lookup a hk]
    rw [TraceFormatter.buildOutput, hctx, hextras]
    have hfil : a.toExtras.filter
        (fun kv =>
          (((formatBase (TraceRecord.toLogRecord c (.action a)) ++
            a.toExtras).lookup kv.1).isNone &&
            !(standardAttrKeys.contains kv.1))) = [] := by
      apply List.filter_eq_nil_iff.mpr
      intro kv hkv
      rcases kv with ⟨k1, v1⟩
      have hsome : ((formatBase (TraceRecord.toLogRecord c (.action a)) ++
          a.toExtras).lookup k1).isSome := by
        rw [lookup_append_of_none (hfb (k1, v1) hkv)]
        exact lookup_isSome_of_mem hkv
      simp only [Bool.not_eq_true, Bool.and_eq_true, Option.isNone_iff_eq_none]
      intro hc
      rw [hc.1] at hsome
      cases hsome
    rw [hfil, List.append_nil]
  · have hctx : formatCtx (TraceRecord.toLogRecord c (.action a)) =
        formatBase (TraceRecord.toLogRecord c (.action a)) := by
      rw [formatCtx, if_pos (by simpa using hlv)]
      simp [TraceRecord.toLogRecord]
    rw [TraceFormatter.buildOutput, hctx, hextras]
    congr 1
    apply List.filter_eq_self.mpr
    intro kv hkv
    rw [hfb kv hkv, hstd kv hkv]
    rfl

theorem buildOutput_simple (s : SimpleTraceRecord) (c : Rat) :
    TraceFormatter.buildOutput (TraceRecord.toLogRecord c (.simple s)) =
      formatBase (TraceRecord.toLogRecord c (.simple s)) := by
  have hctx : formatCtx (TraceRecord.toLogRecord c (.simple s)) =
      formatBase (TraceRecord.toLogRecord c (.simple s)) := by
    by_cases hlv : s.level = "TRACE"
    · rw [formatCtx, if_neg (by simpa using hlv)]
      rw [if_neg (by rw [show (TraceRecord.toLogRecord c (.simple s)).extras =
        [] from rfl]; simp [hasAttr, List.lookup])]
    · rw [formatCtx, if_pos (by simpa using hlv)]
      simp [TraceRecord.toLogRecord]
  rw [TraceFormatter.buildOutput, hctx]
  rw [show (TraceRecord.toLogRecord c (.simple s)).extras = [] from rfl]
  rfl

theorem getRequiredStr_of_lookup {d : List (String × JValue)} {k s : String}
    (h : d.lookup k = some (.jstr s)) : getRequiredStr d k = .ok s := by
  simp [getRequiredStr, h]

theorem getOptionalNum_of_lookup {d : List (String × JValue)} {k : String}
    {o : Option Rat} (h : d.lookup k = o.map (fun q => JValue.jnum q)) :
    getOptionalNum d k = .ok o := by
  cases o <;> simp only [Option.map] at h <;> simp [getOptionalNum, h]

theorem getOptionalStr_of_lookup {d : List (String × JValue)} {k : String}
    {o : Option String} (h : d.lookup k = o.map (fun s => JValue.jstr s)) :
    getOptionalStr d k = .ok o := by
  cases o <;> simp only [Option.map] at h <;> simp [getOptionalStr, h]

theorem readTraceLine_roundtrip (rec : TraceRecord) (c : Rat)
    (hts : rec.timestamp = TraceFormatter.formatTime c) :
    readTraceLine (serializedLine (TraceRecord.toLogRecord c rec)) =
      .ok rec := by
  cases rec with
  | simple s =>
    have hd : TraceFormatter.format (TraceRecord.toLogRecord c (.simple s)) =
        some ((formatBase (TraceRecord.toLogRecord c (.simple s))).map
          (fun kv => (kv.1, dumpsDefault kv.2))) := by
      rw [TraceFormatter.format, json_dumps_default_eq, buildOutput_simple]
    rw [serializedLine, hd]
    have hts2 : s.timestamp = TraceFormatter.formatTime c := hts
    have hbase : (formatBase (TraceRecord.toLogRecord c (.simple s))).map
        (fun kv => (kv.1, dumpsDefault kv.2)) =
        [("timestamp", .jstr (TraceFormatter.formatTime c)),
         ("level", .jstr s.level), ("message", .jstr s.message)] := rfl
    rw [hbase, readTraceLine]
    rw [if_neg (by simp [hasJKey, List.lookup])]
    have hval : SimpleTraceRecord.validate
        [("timestamp", .jstr (TraceFormatter.formatTime c)),
         ("level", .jstr s.level), ("message", .jstr s.message)] =
        .ok ⟨TraceFormatter.formatTime c, s.level, s.message⟩ := by
      simp [SimpleTraceRecord.validate, getRequiredStr, List.lookup, bind,
        Except.bind, pure, Except.pure]
    rw [hval, ← hts2]
    rfl
  | action a =>
    have hd : TraceFormatter.format (TraceRecord.toLogRecord c (.action a)) =
        some ((formatBase (TraceRecord.toLogRecord c (.action a)) ++
          a.toExtras).map (fun kv => (kv.1, dumpsDefault kv.2))) := by
      rw [TraceFormatter.format, json_dumps_default_eq, buildOutput_action]
    rw [serializedLine, hd]
    set d := (formatBase (TraceRecord.toLogRecord c (.action a)) ++
      a.toExtras).map (fun kv => (kv.1, dumpsDefault kv.2)) with hdd
    have hbne : ∀ k0 : String, k0 ≠ "timestamp" → k0 ≠ "level" →
        k0 ≠ "message" →
        d.lookup k0 = (a.toExtras.lookup k0).map dumpsDefault := by
      intro k0 f1 f2 f3
      rw [hdd, lookup_map_value,
        lookup_append_of_none (formatBase_lookup_ne _ f1 f2 f3)]
    have hfx : ∀ k0 : String, k0 ∈ fixedActionKeys →
        d.lookup k0 = (actionField a k0).map dumpsDefault := by
      intro k0 hk0
      have hf : ∀ k1 ∈ fixedActionKeys,
          k1 ≠ "timestamp" ∧ k1 ≠ "level" ∧ k1 ≠ "message" := by decide
      rcases hf k0 hk0 with ⟨f1, f2, f3⟩
      rw [hbne k0 f1 f2 f3, toExtras_lookup a hk0]
    have hts2 : a.timestamp = TraceFormatter.formatTime c := hts
    have g_ts : getRequiredStr d "timestamp" = .ok a.timestamp := by
      refine getRequiredStr_of_lookup ?_
      rw [hdd, lookup_map_value,
        lookup_append_of_some (formatBase_lookup_timestamp _), hts2]
      rfl
    have g_lv : getRequiredStr d "level" = .ok a.level := by
      refine getRequiredStr_of_lookup ?_
      rw [hdd, lookup_map_value,
        lookup_append_of_some (formatBase_lookup_level _)]
      rfl
    have g_msg : getRequiredStr d "message" = .ok a.message := by
      refine getRequiredStr_of_lookup ?_
      rw [hdd, lookup_map_value,
        lookup_append_of_some (formatBase_lookup_message _)]
      rfl
    have g_act : getRequiredStr d "action" = .ok a.action := by
      refine getRequiredStr_of_lookup ?_
      rw [hfx "action" (by decide)]
      rfl
    have g_evs : getRequiredStr d "event" = .ok a.event.toStr := by
      refine getRequiredStr_of_lookup ?_
      rw [hfx "event" (by decide)]
      rfl
    have g_tid : getRequiredStr d "trace_id" = .ok a.trace_id := by
      refine getRequiredStr_of_lookup ?_
      rw [hfx "trace_id" (by decide)]
      rfl
    have g_st : getOptionalNum d "start_time" = .ok a.start_time := by
      refine getOptionalNum_of_lookup ?_
      rw [hfx "start_time" (by decide)]
      show (a.start_time.map (fun x => PyValue.serializable (JValue.jnum x))).map
          dumpsDefault = a.start_time.map (fun x => JValue.jnum x)
      cases a.start_time <;> rfl
    have g_du : getOptionalNum d "duration" = .ok a.duration := by
      refine getOptionalNum_of_lookup ?_
      rw [hfx "duration" (by decide)]
      show (a.duration.map (fun x => PyValue.serializable (JValue.jnum x))).map
          dumpsDefault = a.duration.map (fun x => JValue.jnum x)
      cases a.duration <;> rfl
    have g_er : getOptionalStr d "error" = .ok a.error := by
      refine getOptionalStr_of_lookup ?_
      rw [hfx "error" (by decide)]
      show (a.error.map (fun x => PyValue.serializable (JValue.jstr x))).map
          dumpsDefault = a.error.map (fun x => JValue.jstr x)
      cases a.error <;> rfl
    have g_et : getOptionalStr d "error_type" = .ok a.error_type := by
      refine getOptionalStr_of_lookup ?_
      rw [hfx "error_type" (by decide)]
      show (a.error_type.map (fun x => PyValue.serializable (JValue.jstr x))).map
          dumpsDefault = a.error_type.map (fun x => JValue.jstr x)
      cases a.error_type <;> rfl
    have g_sk : getOptionalStr d "stacktrace" = .ok a.stacktrace := by
      refine getOptionalStr_of_lookup ?_
      rw [hfx "stacktrace" (by decide)]
      show (a.stacktrace.map (fun x => PyValue.serializable (JValue.jstr x))).map
          dumpsDefault = a.stacktrace.map (fun x => JValue.jstr x)
      cases a.stacktrace <;> rfl
    have hval : ActionTraceRecord.validate d = .ok a := by
      simp only [ActionTraceRecord.validate, bind, Except.bind, pure,
        Except.pure, g_ts, g_lv, g_msg, g_act, g_evs, parseEvent_toStr,
        g_tid, g_st, g_du, g_er, g_et, g_sk]
    have hkey : hasJKey d "action" = true := by
      rw [hasJKey, hfx "action" (by decide)]
      rfl
    rw [readTraceLine, if_pos hkey, hval]
    rfl

/-- Claim C3: the round-trip law.  Serializing any finite mix of simple and
action trace records through `TraceFormatter.format`, one JSON object per
line, and reading the file back with `read_trace_file` returns exactly the
same number of typed records, equal in field content and in the original
order.  (Each record's `timestamp` is the formatter's rendering of its log
record's creation instant, supplied here as the paired rational.) -/
theorem trace_roundtrip (recs : List (TraceRecord × Rat))
    (hts : ∀ p ∈ recs, p.1.timestamp = TraceFormatter.formatTime p.2) :
    read_trace_file
      (recs.map (fun p => serializedLine (TraceRecord.toLogRecord p.2 p.1))) =
      .ok (recs.map Prod.fst) := by
  induction recs with
  | nil => rfl
  | cons p rest ih =>
    rw [List.map_cons, List.map_cons, read_trace_file,
      readTraceLine_roundtrip p.1 p.2 (hts p (List.mem_cons_self _ _)),
      ih (fun q hq => hts q (List.mem_cons_of_mem _ hq))]

theorem trace_roundtrip_witness :
    read_trace_file
      ([((TraceRecord.simple ⟨"1970-01-01T00:00:00", "INFO", "hello"⟩ :
            TraceRecord), (0 : Rat)),
        ((TraceRecord.action ⟨"1970-01-01T00:00:10", "TRACE",
            "Action: build - go (exit)", "build", .exit, "idZ", none,
            some 2, none, none, none⟩ : TraceRecord), (10 : Rat))].map
        (fun p => serializedLine (TraceRecord.toLogRecord p.2 p.1))) =
      .ok [TraceRecord.simple ⟨"1970-01-01T00:00:00", "INFO", "hello"⟩,
        TraceRecord.action ⟨"1970-01-01T00:00:10", "TRACE",
          "Action: build - go (exit)", "build", .exit, "idZ", none,
          some 2, none, none, none⟩] :=
  trace_roundtrip
    [((TraceRecord.simple ⟨"1970-01-01T00:00:00", "INFO", "hello"⟩ :
        TraceRecord), (0 : Rat)),
     ((TraceRecord.action ⟨"1970-01-01T00:00:10", "TRACE",
        "Action: build - go (exit)", "build", .exit, "idZ", none,
        some 2, none, none, none⟩ : TraceRecord), (10 : Rat))]
    (by
      intro p hp
      simp only [List.mem_cons, List.not_mem_nil, or_false] at hp
      rcases hp with rfl | rfl <;> decide)

end InspectTrace
